import Mathlib

/-!
Verification development for the aidev-backend repository.

The definitions below are a shallow embedding of the data-access layer
(`DatabaseService`), the AI gateway (`AIService`) and the relevant request
handlers.  SQL statements are modelled by pure functions over an explicit
database state (`DB`): a table is a list of rows, a `WHERE` clause is a
filter, a join is an existential test over the joined table, `ORDER BY` is
`List.insertionSort`, `LIMIT` is `List.take`, and `RETURNING *` returns the
affected row.  The model assumes primary-key uniqueness of `projects.id`
where noted.  Timestamps (`NOW()`) are passed in explicitly as a `Nat`
parameter.  Fallible operations return `Except` or `Option`.
-/

namespace AidevBackend

/-! ### Query builder: `updateProject` (dynamic SET clause)

`DatabaseService.updateProject` iterates over `Object.entries(updates)` with
a mutable `paramCount` starting at 1, pushing `key = $n` fragments and the
corresponding values; the mapping is modelled as an association list in
insertion order.  It throws when no field was supplied, and otherwise
appends the row selectors and builds the UPDATE statement (whitespace of the
template literal is normalised to single spaces). -/

/-- One step per entry of the updates mapping: returns the accumulated
`key = $n` fragments, the bind values in the same order, and the final
value of the parameter counter. -/
def buildSetClause : List (String × String) → Nat → List String × List String × Nat
  | [], paramCount => ([], [], paramCount)
  | kv :: rest, paramCount =>
    let r := buildSetClause rest (paramCount + 1)
    ((kv.1 ++ " = $" ++ toString paramCount) :: r.1, kv.2 :: r.2.1, r.2.2)

/-- Operation `DatabaseService.updateProject`: builds the parameterized UPDATE
statement and its bind-value list, or throws when the mapping is empty.
The statement is issued to the storage engine only in the `Except.ok`
case, so an `Except.error` result means no query was executed. -/
def updateProject (projectId userId : String) (updates : List (String × String)) :
    Except String (String × List String) :=
  let built := buildSetClause updates 1
  let fields := built.1
  let values := built.2.1
  let paramCount := built.2.2
  if fields.isEmpty then
    Except.error "No fields to update"
  else
    Except.ok
      ("UPDATE projects SET " ++ String.intercalate ", " fields ++
         ", updated_at = NOW() WHERE id = $" ++ toString paramCount ++
         " AND user_id = $" ++ toString (paramCount + 1) ++ " RETURNING *",
       values ++ [projectId, userId])

/-! ### Data model -/

/-- A row of the `projects` table. -/
structure Project where
  id : String
  user_id : String
  name : String
  description : String
  template_used : Option String
  status : String
  settings : Option String
  created_at : Nat
  updated_at : Nat
deriving DecidableEq, Repr

/-- A row of the `project_files` table (unique on `(project_id, file_path)`). -/
structure ProjectFile where
  project_id : String
  file_path : String
  file_name : String
  content : String
  file_type : String
  size_bytes : Nat
  created_at : Nat
  updated_at : Nat
deriving DecidableEq, Repr

/-- A row of the `conversations` table (append-only). -/
structure Conversation where
  project_id : String
  user_id : String
  message : String
  response : String
  ai_model : String
  tokens_used : Nat
  created_at : Nat
deriving DecidableEq, Repr

/-- The database state: the three tables. -/
structure DB where
  projects : List Project
  project_files : List ProjectFile
  conversations : List Conversation
deriving DecidableEq, Repr

/-! Ordering relations used for the `ORDER BY` clauses. -/

/-- Relation for `ORDER BY created_at DESC` on conversations. -/
def convCreatedDesc (a b : Conversation) : Prop := b.created_at ≤ a.created_at

instance : DecidableRel convCreatedDesc := fun _ _ => Nat.decLe _ _

instance : IsTotal Conversation convCreatedDesc :=
  ⟨fun a b => Nat.le_total b.created_at a.created_at⟩

instance : IsTrans Conversation convCreatedDesc :=
  ⟨fun _ _ _ h h' => Nat.le_trans h' h⟩

/-- Relation for `ORDER BY pf.file_path` on project files. -/
def filePathAsc (a b : ProjectFile) : Prop := a.file_path ≤ b.file_path

instance : DecidableRel filePathAsc := fun _ _ => inferInstanceAs (Decidable (_ ≤ _))

/-- Relation for `ORDER BY p.updated_at DESC` on projects. -/
def projUpdatedDesc (a b : Project) : Prop := b.updated_at ≤ a.updated_at

instance : DecidableRel projUpdatedDesc := fun _ _ => Nat.decLe _ _

/-! ### Persistence-layer operations -/

/-- Operation `getProject`: `SELECT * FROM projects WHERE id = $1 AND user_id = $2 AND
status = active`, returning `rows[0]`. -/
def getProject (db : DB) (projectId userId : String) : Option Project :=
  (db.projects.filter fun p =>
    p.id == projectId && p.user_id == userId && p.status == "active").head?

/-- Operation `getProjects`: active projects of the user ordered by `updated_at DESC`
(the aggregate annotations of the SQL query are not modelled: they do not
change which rows are returned). -/
def getProjects (db : DB) (userId : String) : List Project :=
  List.insertionSort projUpdatedDesc
    (db.projects.filter fun p => p.user_id == userId && p.status == "active")

/-- Operation `deleteProject`: `UPDATE projects SET status = deleted, updated_at =
NOW() WHERE id = $1 AND user_id = $2 RETURNING *`; returns the affected row
(or `none`) together with the new state. -/
def deleteProject (db : DB) (projectId userId : String) (now : Nat) :
    Option Project × DB :=
  let updated := db.projects.map fun p =>
    if p.id == projectId && p.user_id == userId then
      { p with status := "deleted", updated_at := now }
    else p
  ((updated.filter fun p => p.id == projectId && p.user_id == userId).head?,
   { db with projects := updated })

/-- Operation `saveConversation`: inserts the row, then bumps the parent project
timestamp with a second statement (`UPDATE projects SET updated_at = NOW()
WHERE id = $1`). -/
def saveConversation (db : DB) (projectId userId message response aiModel : String)
    (tokensUsed : Nat) (now : Nat) : Conversation × DB :=
  let c : Conversation :=
    { project_id := projectId, user_id := userId, message := message,
      response := response, ai_model := aiModel, tokens_used := tokensUsed,
      created_at := now }
  (c, { db with
        conversations := db.conversations ++ [c],
        projects := db.projects.map fun p =>
          if p.id == projectId then { p with updated_at := now } else p })

/-- Operation `getConversations`: join through `projects` on ownership, `ORDER BY
c.created_at DESC LIMIT $3`, then `rows.reverse()` to hand back
chronological order. -/
def getConversations (db : DB) (projectId userId : String) (limit : Nat) :
    List Conversation :=
  let rows := db.conversations.filter fun c =>
    c.project_id == projectId &&
      db.projects.any fun p => p.id == c.project_id && p.user_id == userId
  ((List.insertionSort convCreatedDesc rows).take limit).reverse

/-- Operation `saveProjectFile`: `INSERT ... ON CONFLICT (project_id, file_path) DO
UPDATE SET content, file_name, file_type, size_bytes, updated_at RETURNING *`,
with `size_bytes` recomputed as `Buffer.byteLength(content, "utf8")`; then a
second statement bumps the parent project timestamp. -/
def saveProjectFile (db : DB) (projectId filePath fileName content fileType : String)
    (now : Nat) : Option ProjectFile × DB :=
  let sizeBytes := content.utf8ByteSize
  let conflict := db.project_files.any fun f =>
    f.project_id == projectId && f.file_path == filePath
  let files :=
    if conflict then
      db.project_files.map fun f =>
        if f.project_id == projectId && f.file_path == filePath then
          { f with content := content, file_name := fileName,
                   file_type := fileType, size_bytes := sizeBytes,
                   updated_at := now }
        else f
    else
      db.project_files ++
        [{ project_id := projectId, file_path := filePath, file_name := fileName,
           content := content, file_type := fileType, size_bytes := sizeBytes,
           created_at := now, updated_at := now }]
  ((files.filter fun f => f.project_id == projectId && f.file_path == filePath).head?,
   { db with
     project_files := files,
     projects := db.projects.map fun p =>
       if p.id == projectId then { p with updated_at := now } else p })

/-- Operation `getProjectFiles`: ownership join, `ORDER BY pf.file_path`. -/
def getProjectFiles (db : DB) (projectId userId : String) : List ProjectFile :=
  List.insertionSort filePathAsc
    (db.project_files.filter fun f =>
      f.project_id == projectId &&
        db.projects.any fun p => p.id == f.project_id && p.user_id == userId)

/-- Operation `getProjectFile`: ownership-joined point lookup, returning `rows[0]`. -/
def getProjectFile (db : DB) (projectId filePath userId : String) :
    Option ProjectFile :=
  (db.project_files.filter fun f =>
    f.project_id == projectId && f.file_path == filePath &&
      db.projects.any fun p => p.id == f.project_id && p.user_id == userId).head?

/-- Operation `deleteProjectFile`: `DELETE ... USING projects` with the same ownership
join, returning the removed row. -/
def deleteProjectFile (db : DB) (projectId filePath userId : String) :
    Option ProjectFile × DB :=
  let pred := fun (f : ProjectFile) =>
    f.project_id == projectId && f.file_path == filePath &&
      db.projects.any fun p => p.id == f.project_id && p.user_id == userId
  ((db.project_files.filter pred).head?,
   { db with project_files := db.project_files.filter fun f => !pred f })

/-! ### Request-handler layer (routes/projects.js and routes/chat.js) -/

/-- Helper `getUserId(req)`: the `x-user-id` header value, falling back to
`"demo-user"` when the header is absent or empty (JavaScript `||` treats the
empty string as falsy). -/
def getUserId (header : Option String) : String :=
  match header with
  | none => "demo-user"
  | some s => if s == "" then "demo-user" else s

/-- The effective limit of `GET /conversations/:projectId`:
`parseInt(req.query.limit) || 50`, then `Math.min(limit, 100)`.  A missing
or unparsable query value is `none`; `parseInt` yielding `0` also falls back
to 50 under `||`. -/
def conversationsLimit (q : Option Nat) : Nat :=
  let limit := match q with
    | none => 50
    | some 0 => 50
    | some n => n
  min limit 100

/-- Endpoint `POST /:id/files`: verifies project ownership via `getProject` and only
then calls `saveProjectFile`; `none` models the 404 response (no write). -/
def handleSaveFile (db : DB) (header : Option String)
    (projectId filePath fileName content fileType : String) (now : Nat) :
    Option (Option ProjectFile × DB) :=
  let userId := getUserId header
  match getProject db projectId userId with
  | none => none
  | some _ => some (saveProjectFile db projectId filePath fileName content fileType now)

/-- The persistence path of `POST /message` in routes/chat.js: when a
`projectId` is supplied the handler first resolves the project with
`getProject` (404 when absent) and only after a successful generation calls
`saveConversation`; `none` models the 404 response (no write). -/
def handleSaveConversation (db : DB) (header : Option String)
    (projectId message response aiModel : String) (tokensUsed now : Nat) :
    Option (Conversation × DB) :=
  let userId := getUserId header
  match getProject db projectId userId with
  | none => none
  | some _ => some (saveConversation db projectId userId message response aiModel tokensUsed now)

/-! ### AI gateway (`AIService`)

The external provider call is modelled by a `ProviderOutcome` argument: what
`anthropic.messages.create` would do if it were invoked.  Each capability
returns its normalized result together with a `Bool` recording whether the
provider was invoked at all. -/

/-- Outcome of the single provider call: a message with token usage, or a
thrown error carrying an optional HTTP status and a message. -/
inductive ProviderOutcome where
  | ok (text : String) (inputTokens outputTokens : Nat)
  | err (status : Option Nat) (message : String)
deriving DecidableEq, Repr

/-- The uniform result shape of the four capabilities.  `output` holds the
`code` / `explanation` / `suggestions` / `tests` payload; `errCode` models
the extra `code: error.status || "UNKNOWN"` field of `generateCode`
failures. -/
structure AIResult where
  success : Bool
  error : Option String
  output : Option String
  inputTokens : Option Nat
  outputTokens : Option Nat
  totalTokens : Option Nat
  errCode : Option String
deriving DecidableEq, Repr

/-- The AI service: `anthropic` is `none` when `CLAUDE_API_KEY` was absent
at startup. -/
structure AIService where
  anthropic : Option Unit
deriving DecidableEq, Repr

/-- Method `AIService.isConfigured()`. -/
def AIService.isConfigured (svc : AIService) : Bool :=
  svc.anthropic.isSome

/-- Method `AIService.generateCode`: short-circuits when unconfigured; on a provider
error classifies status 401 / 429 / 400 into specific messages and anything
else into the raw provider message, with `code: error.status || "UNKNOWN"`. -/
def AIService.generateCode (svc : AIService) (provider : ProviderOutcome) :
    AIResult × Bool :=
  match svc.anthropic with
  | none =>
    ({ success := false,
       error := some "AI service not configured - please add CLAUDE_API_KEY environment variable",
       output := none, inputTokens := none, outputTokens := none,
       totalTokens := none, errCode := none }, false)
  | some _ =>
    match provider with
    | .ok text inTok outTok =>
      ({ success := true, error := none, output := some text,
         inputTokens := some inTok, outputTokens := some outTok,
         totalTokens := some (inTok + outTok), errCode := none }, true)
    | .err status message =>
      let errorMessage :=
        if status == some 401 then
          "Invalid API key - please check your CLAUDE_API_KEY environment variable"
        else if status == some 429 then
          "Rate limit exceeded - please try again in a moment"
        else if status == some 400 then
          "Invalid request - the prompt might be too long or contain unsupported content"
        else message
      ({ success := false, error := some errorMessage, output := none,
         inputTokens := none, outputTokens := none, totalTokens := none,
         errCode := some (match status with
           | some n => toString n
           | none => "UNKNOWN") }, true)

/-- Method `AIService.explainCode`: short-circuits when unconfigured; on a provider
error returns `error.message` verbatim, with no status classification. -/
def AIService.explainCode (svc : AIService) (provider : ProviderOutcome) :
    AIResult × Bool :=
  match svc.anthropic with
  | none =>
    ({ success := false,
       error := some "AI service not configured - please add CLAUDE_API_KEY environment variable",
       output := none, inputTokens := none, outputTokens := none,
       totalTokens := none, errCode := none }, false)
  | some _ =>
    match provider with
    | .ok text inTok outTok =>
      ({ success := true, error := none, output := some text,
         inputTokens := some inTok, outputTokens := some outTok,
         totalTokens := some (inTok + outTok), errCode := none }, true)
    | .err _ message =>
      ({ success := false, error := some message, output := none,
         inputTokens := none, outputTokens := none, totalTokens := none,
         errCode := none }, true)

/-- Method `AIService.suggestImprovements`: like `explainCode` but with the shorter
unconfigured message of the source. -/
def AIService.suggestImprovements (svc : AIService) (provider : ProviderOutcome) :
    AIResult × Bool :=
  match svc.anthropic with
  | none =>
    ({ success := false, error := some "AI service not configured",
       output := none, inputTokens := none, outputTokens := none,
       totalTokens := none, errCode := none }, false)
  | some _ =>
    match provider with
    | .ok text inTok outTok =>
      ({ success := true, error := none, output := some text,
         inputTokens := some inTok, outputTokens := some outTok,
         totalTokens := some (inTok + outTok), errCode := none }, true)
    | .err _ message =>
      ({ success := false, error := some message, output := none,
         inputTokens := none, outputTokens := none, totalTokens := none,
         errCode := none }, true)

/-- Method `AIService.generateTests`: like `suggestImprovements`. -/
def AIService.generateTests (svc : AIService) (provider : ProviderOutcome) :
    AIResult × Bool :=
  match svc.anthropic with
  | none =>
    ({ success := false, error := some "AI service not configured",
       output := none, inputTokens := none, outputTokens := none,
       totalTokens := none, errCode := none }, false)
  | some _ =>
    match provider with
    | .ok text inTok outTok =>
      ({ success := true, error := none, output := some text,
         inputTokens := some inTok, outputTokens := some outTok,
         totalTokens := some (inTok + outTok), errCode := none }, true)
    | .err _ message =>
      ({ success := false, error := some message, output := none,
         inputTokens := none, outputTokens := none, totalTokens := none,
         errCode := none }, true)

/-! ### Concrete fixtures for the witness theorems -/

/-- A project row owned by user "alice". -/
def aliceProject : Project :=
  { id := "p1", user_id := "alice", name := "Demo", description := "",
    template_used := none, status := "active", settings := none,
    created_at := 1, updated_at := 1 }

/-- A file row of `aliceProject`. -/
def sampleFile : ProjectFile :=
  { project_id := "p1", file_path := "a.txt", file_name := "a.txt",
    content := "hi", file_type := "text", size_bytes := 2,
    created_at := 2, updated_at := 2 }

/-- An older conversation row of `aliceProject`. -/
def sampleConvEarly : Conversation :=
  { project_id := "p1", user_id := "alice", message := "hello",
    response := "hi there", ai_model := "claude-3-5-sonnet",
    tokens_used := 3, created_at := 5 }

/-- A newer conversation row of `aliceProject`. -/
def sampleConvLate : Conversation :=
  { project_id := "p1", user_id := "alice", message := "again",
    response := "sure", ai_model := "claude-3-5-sonnet",
    tokens_used := 4, created_at := 9 }

/-- A small concrete database state. -/
def sampleDB : DB :=
  { projects := [aliceProject],
    project_files := [sampleFile],
    conversations := [sampleConvEarly, sampleConvLate] }

/-! ### Theorems -/

/-- Closed form of the `SET`-clause builder: starting the counter at `k`, the
fragments pair each supplied field name with consecutive placeholders
`$k, $(k+1), ...`, the values are the mapping values in order, and the
counter ends at `k + length`. -/
theorem buildSetClause_eq (updates : List (String × String)) (k : Nat) :
    buildSetClause updates k =
      ((List.enumFrom k updates).map fun p => p.2.1 ++ " = $" ++ toString p.1,
       updates.map Prod.snd, k + updates.length) := by
  induction updates generalizing k with
  | nil => simp [buildSetClause]
  | cons kv rest ih =>
    simp [buildSetClause, ih, List.enumFrom_cons]
    omega

/-- Claim C1: for a non-empty mapping, `updateProject` emits a SET clause
listing exactly the supplied field names in mapping order with placeholders
`$1..$n` plus an appended `updated_at = NOW()`, a WHERE clause constraining
the id (`$(n+1)`) and the owner (`$(n+2)`), and a bind-value list holding the
mapping values in the same order with the row selectors (id, owner) last. -/
theorem updateProject_builds_set_and_bindings
    (projectId userId : String) (updates : List (String × String))
    (h : updates ≠ []) :
    updateProject projectId userId updates =
      Except.ok
        ("UPDATE projects SET " ++
           String.intercalate ", "
             ((List.enumFrom 1 updates).map fun p => p.2.1 ++ " = $" ++ toString p.1) ++
           ", updated_at = NOW() WHERE id = $" ++ toString (updates.length + 1) ++
           " AND user_id = $" ++ toString (updates.length + 2) ++ " RETURNING *",
         updates.map Prod.snd ++ [projectId, userId]) := by
  obtain ⟨kv, rest, rfl⟩ := List.exists_cons_of_ne_nil h
  have e1 : (1 : Nat) + (rest.length + 1) = rest.length + 1 + 1 := by omega
  have e2 : (1 : Nat) + (1 + (rest.length + 1)) = rest.length + 1 + 2 := by omega
  rw [updateProject, buildSetClause_eq]
  simp [List.enumFrom_cons, e1, e2]

/-- Witness for C1 at a concrete two-field mapping. -/
theorem updateProject_builds_set_and_bindings_witness :
    ([("name", "N"), ("status", "active")] : List (String × String)) ≠ [] ∧
      updateProject "proj-1" "user-1" [("name", "N"), ("status", "active")] =
        Except.ok
          ("UPDATE projects SET name = $1, status = $2, updated_at = NOW() WHERE id = $3 AND user_id = $4 RETURNING *",
           ["N", "active", "proj-1", "user-1"]) := by
  refine ⟨by decide, ?_⟩
  have h := updateProject_builds_set_and_bindings "proj-1" "user-1"
    [("name", "N"), ("status", "active")] (by decide)
  simpa [List.enumFrom] using h

/-- Claim C2: for the empty mapping, `updateProject` throws the usage error
before any statement is built or issued (no `Except.ok` query/bind pair is
ever produced). -/
theorem updateProject_empty_fails :
    ∀ projectId userId : String,
      updateProject projectId userId [] = Except.error "No fields to update" := by
  intro projectId userId
  rfl

/-- Claim C10: when the x-user-id header is absent or empty, the resolved
caller identity is the fixed string "demo-user", so any two such requests
act as the same user (the request is not rejected). -/
theorem getUserId_defaults_to_demo_user
    (h₁ h₂ : Option String)
    (e₁ : h₁ = none ∨ h₁ = some "") (e₂ : h₂ = none ∨ h₂ = some "") :
    getUserId h₁ = "demo-user" ∧ getUserId h₁ = getUserId h₂ := by
  rcases e₁ with rfl | rfl <;> rcases e₂ with rfl | rfl <;> exact ⟨rfl, rfl⟩

/-- Witness for C10: the absent header and the empty header both resolve to
"demo-user". -/
theorem getUserId_defaults_to_demo_user_witness :
    ((none : Option String) = none ∨ (none : Option String) = some "") ∧
      getUserId none = "demo-user" ∧ getUserId none = getUserId (some "") :=
  ⟨Or.inl rfl,
   getUserId_defaults_to_demo_user none (some "") (Or.inl rfl) (Or.inr rfl)⟩

/-- Claim C8: with no provider credential (`isConfigured()` false), each of
the four generation calls returns a structured failure whose message starts
with the common "AI service not configured" classification, and the provider
is never invoked (the `Bool` component is `false` for every possible
provider outcome). -/
theorem unconfigured_calls_short_circuit (svc : AIService)
    (h : svc.isConfigured = false) (provider : ProviderOutcome) :
    svc.generateCode provider =
      (⟨false,
        some "AI service not configured - please add CLAUDE_API_KEY environment variable",
        none, none, none, none, none⟩, false) ∧
    svc.explainCode provider =
      (⟨false,
        some "AI service not configured - please add CLAUDE_API_KEY environment variable",
        none, none, none, none, none⟩, false) ∧
    svc.suggestImprovements provider =
      (⟨false, some "AI service not configured", none, none, none, none, none⟩, false) ∧
    svc.generateTests provider =
      (⟨false, some "AI service not configured", none, none, none, none, none⟩, false) ∧
    (∀ r ∈ [svc.generateCode provider, svc.explainCode provider,
            svc.suggestImprovements provider, svc.generateTests provider],
      r.1.success = false ∧ r.2 = false ∧
        ∃ rest, r.1.error = some ("AI service not configured" ++ rest)) := by
  cases svc with
  | mk anthropic =>
    cases anthropic with
    | none =>
      refine ⟨rfl, rfl, rfl, rfl, ?_⟩
      intro r hr
      simp only [AIService.generateCode, AIService.explainCode,
        AIService.suggestImprovements, AIService.generateTests,
        List.mem_cons, List.mem_singleton] at hr
      rcases hr with rfl | rfl | rfl | rfl | h
      · exact ⟨rfl, rfl, " - please add CLAUDE_API_KEY environment variable", rfl⟩
      · exact ⟨rfl, rfl, " - please add CLAUDE_API_KEY environment variable", rfl⟩
      · exact ⟨rfl, rfl, "", rfl⟩
      · exact ⟨rfl, rfl, "", rfl⟩
      · cases h
    | some u => simp [AIService.isConfigured] at h

/-- Witness for C8 at the unconfigured service and a concrete provider
outcome. -/
theorem unconfigured_calls_short_circuit_witness :
    AIService.isConfigured ⟨none⟩ = false ∧
      AIService.generateCode ⟨none⟩ (ProviderOutcome.ok "त" 1 2) =
        (⟨false,
          some "AI service not configured - please add CLAUDE_API_KEY environment variable",
          none, none, none, none, none⟩, false) ∧
      AIService.generateTests ⟨none⟩ (ProviderOutcome.ok "त" 1 2) =
        (⟨false, some "AI service not configured", none, none, none, none, none⟩, false) := by
  have h := unconfigured_calls_short_circuit ⟨none⟩ rfl (ProviderOutcome.ok "त" 1 2)
  exact ⟨rfl, h.1, h.2.2.2.1⟩

/-- Claim C9 counterexample: with a configured service, `explainCode` maps an
unauthenticated (status 401) provider error and a rate-limited (status 429)
provider error carrying the same provider message to the identical failure
value, whose message is the raw provider message; so the gateway does not
distinguish the error classes for the explain-code capability, refuting the
claim that all four capabilities do. -/
theorem explainCode_conflates_error_classes :
    AIService.explainCode ⟨some ()⟩ (ProviderOutcome.err (some 401) "boom") =
        AIService.explainCode ⟨some ()⟩ (ProviderOutcome.err (some 429) "boom") ∧
      (AIService.explainCode ⟨some ()⟩ (ProviderOutcome.err (some 401) "boom")).1.error =
        some "boom" :=
  ⟨rfl, rfl⟩

/-- Claim C9 (amended): each of the four capabilities normalizes a provider
error into a structured failure value (never a raised exception) with a
human-readable message; `generateCode` distinguishes unauthenticated (401),
rate-limited (429) and malformed-request (400) with specific messages and
everything else with the raw provider message, while `explainCode`,
`suggestImprovements` and `generateTests` surface the raw provider message
verbatim without class distinction. -/
theorem ai_gateway_error_normalization (svc : AIService)
    (h : svc.isConfigured = true) (status : Option Nat) (msg : String) :
    (svc.generateCode (.err status msg)).1.success = false ∧
    (∃ m, (svc.generateCode (.err status msg)).1.error = some m) ∧
    (svc.explainCode (.err status msg)).1 =
      ⟨false, some msg, none, none, none, none, none⟩ ∧
    (svc.suggestImprovements (.err status msg)).1 =
      ⟨false, some msg, none, none, none, none, none⟩ ∧
    (svc.generateTests (.err status msg)).1 =
      ⟨false, some msg, none, none, none, none, none⟩ ∧
    (svc.generateCode (.err (some 401) msg)).1.error =
      some "Invalid API key - please check your CLAUDE_API_KEY environment variable" ∧
    (svc.generateCode (.err (some 429) msg)).1.error =
      some "Rate limit exceeded - please try again in a moment" ∧
    (svc.generateCode (.err (some 400) msg)).1.error =
      some "Invalid request - the prompt might be too long or contain unsupported content" ∧
    (status ≠ some 401 → status ≠ some 429 → status ≠ some 400 →
      (svc.generateCode (.err status msg)).1.error = some msg) := by
  cases svc with
  | mk anthropic =>
    cases anthropic with
    | none => simp [AIService.isConfigured] at h
    | some u =>
      refine ⟨rfl, ⟨_, rfl⟩, rfl, rfl, rfl, rfl, rfl, rfl, ?_⟩
      intro h1 h2 h3
      simp [AIService.generateCode, beq_eq_false_iff_ne, h1, h2, h3]

/-- Witness for the amended C9 at a configured service and a status-500
provider error. -/
theorem ai_gateway_error_normalization_witness :
    AIService.isConfigured ⟨some ()⟩ = true ∧
      (AIService.explainCode ⟨some ()⟩ (ProviderOutcome.err (some 500) "kaput")).1 =
        ⟨false, some "kaput", none, none, none, none, none⟩ ∧
      (AIService.generateCode ⟨some ()⟩ (ProviderOutcome.err (some 500) "kaput")).1.error =
        some "kaput" := by
  have h := ai_gateway_error_normalization ⟨some ()⟩ rfl (some 500) "kaput"
  exact ⟨rfl, h.2.2.1,
    h.2.2.2.2.2.2.2.2 (by decide) (by decide) (by decide)⟩

/-- Membership is invariant under `insertionSort`. -/
theorem mem_insertionSort_iff {α : Type} (r : α → α → Prop) [DecidableRel r]
    {a : α} {l : List α} : a ∈ List.insertionSort r l ↔ a ∈ l :=
  (List.perm_insertionSort r l).mem_iff

/-- Lemma: `List.any` is unchanged by a map that the predicate cannot observe. -/
theorem any_map_of_pred_eq {α : Type} {g : α → α} {p : α → Bool}
    (h : ∀ x, p (g x) = p x) (l : List α) : (l.map g).any p = l.any p := by
  induction l with
  | nil => rfl
  | cons x xs ih => simp [List.any_cons, h x, ih]

/-- Rows of `getProjectFiles` come from the files table, carry the requested
project id, and their parent project row belongs to the requesting user. -/
theorem mem_getProjectFiles {db : DB} {pid uid : String} {f : ProjectFile} :
    f ∈ getProjectFiles db pid uid ↔
      f ∈ db.project_files ∧ f.project_id = pid ∧
        ∃ p ∈ db.projects, p.id = f.project_id ∧ p.user_id = uid := by
  rw [getProjectFiles, mem_insertionSort_iff, List.mem_filter]
  simp [List.any_eq_true, and_assoc]

/-- Rows of `getConversations` come from the conversations table, carry the
requested project id, and their parent project row belongs to the requesting
user. -/
theorem mem_getConversations {db : DB} {pid uid : String} {limit : Nat}
    {c : Conversation} (h : c ∈ getConversations db pid uid limit) :
    c ∈ db.conversations ∧ c.project_id = pid ∧
      ∃ p ∈ db.projects, p.id = c.project_id ∧ p.user_id = uid := by
  rw [getConversations, List.mem_reverse] at h
  have h' := (List.take_sublist _ _).subset h
  rw [mem_insertionSort_iff, List.mem_filter] at h'
  simpa [List.any_eq_true, and_assoc] using h'

/-- A row returned by `getProjectFile` comes from the files table, matches
the requested key, and its parent project row belongs to the requesting
user. -/
theorem getProjectFile_eq_some {db : DB} {pid path uid : String}
    {f : ProjectFile} (h : getProjectFile db pid path uid = some f) :
    f ∈ db.project_files ∧ f.project_id = pid ∧ f.file_path = path ∧
      ∃ p ∈ db.projects, p.id = f.project_id ∧ p.user_id = uid := by
  rw [getProjectFile] at h
  have hm : f ∈ List.filter _ db.project_files :=
    List.mem_of_mem_head? (Option.mem_def.mpr h)
  rw [List.mem_filter] at hm
  simpa [List.any_eq_true, and_assoc] using hm

/-- Claim C3: for distinct users A and B where every project row with the
given id belongs to A, user B observes exactly the outcome of a nonexistent
project on all four read operations: absent project, empty file list, empty
conversation list, absent file — the same values those operations yield for
an id no project row carries. -/
theorem reads_hide_foreign_projects (db : DB)
    (pid pidAbsent path A B : String) (limit : Nat)
    (hAB : B ≠ A)
    (hown : ∀ q ∈ db.projects, q.id = pid → q.user_id = A)
    (habs : ∀ q ∈ db.projects, q.id ≠ pidAbsent) :
    (getProject db pid B = none ∧
     getProjectFiles db pid B = [] ∧
     getConversations db pid B limit = [] ∧
     getProjectFile db pid path B = none) ∧
    (getProject db pidAbsent B = none ∧
     getProjectFiles db pidAbsent B = [] ∧
     getConversations db pidAbsent B limit = [] ∧
     getProjectFile db pidAbsent path B = none) := by
  have hno : ∀ x : String, x = pid ∨ x = pidAbsent →
      db.projects.any (fun p => p.id == x && p.user_id == B) = false := by
    intro x hx
    rw [List.any_eq_false]
    intro p hp
    simp only [Bool.and_eq_true, beq_iff_eq]
    rintro ⟨hpid, hpB⟩
    rcases hx with rfl | rfl
    · exact hAB (hpB.symm.trans (hown p hp hpid))
    · exact habs p hp hpid
  have hfiles : ∀ x : String, x = pid ∨ x = pidAbsent →
      getProjectFiles db x B = [] := by
    intro x hx
    have hnil : (db.project_files.filter fun f =>
        f.project_id == x &&
          db.projects.any fun p => p.id == f.project_id && p.user_id == B) = [] := by
      rw [List.filter_eq_nil_iff]
      intro f hf
      simp only [Bool.and_eq_true, beq_iff_eq]
      rintro ⟨hfp, hany⟩
      rw [hfp, hno x hx] at hany
      cases hany
    rw [getProjectFiles, hnil]
    rfl
  have hconvs : ∀ x : String, x = pid ∨ x = pidAbsent →
      getConversations db x B limit = [] := by
    intro x hx
    have hnil : (db.conversations.filter fun c =>
        c.project_id == x &&
          db.projects.any fun p => p.id == c.project_id && p.user_id == B) = [] := by
      rw [List.filter_eq_nil_iff]
      intro c hc
      simp only [Bool.and_eq_true, beq_iff_eq]
      rintro ⟨hcp, hany⟩
      rw [hcp, hno x hx] at hany
      cases hany
    rw [getConversations, hnil]
    simp
  have hproj : ∀ x : String, x = pid ∨ x = pidAbsent →
      getProject db x B = none := by
    intro x hx
    rw [getProject, List.head?_eq_none_iff, List.filter_eq_nil_iff]
    intro p hp
    simp only [Bool.and_eq_true, beq_iff_eq]
    rintro ⟨⟨hpid, hpB⟩, hact⟩
    rcases hx with rfl | rfl
    · exact hAB (hpB.symm.trans (hown p hp hpid))
    · exact habs p hp hpid
  have hfile : ∀ x : String, x = pid ∨ x = pidAbsent →
      getProjectFile db x path B = none := by
    intro x hx
    rw [getProjectFile, List.head?_eq_none_iff, List.filter_eq_nil_iff]
    intro f hf
    simp only [Bool.and_eq_true, beq_iff_eq]
    rintro ⟨⟨hfp, hpath⟩, hany⟩
    rw [hfp, hno x hx] at hany
    cases hany
  exact ⟨⟨hproj pid (Or.inl rfl), hfiles pid (Or.inl rfl),
          hconvs pid (Or.inl rfl), hfile pid (Or.inl rfl)⟩,
         ⟨hproj pidAbsent (Or.inr rfl), hfiles pidAbsent (Or.inr rfl),
          hconvs pidAbsent (Or.inr rfl), hfile pidAbsent (Or.inr rfl)⟩⟩

/-- Witness for C3: "bob" sees nothing of the project "p1" owned by
"alice", exactly as for the nonexistent id "ghost". -/
theorem reads_hide_foreign_projects_witness :
    ("bob" ≠ "alice") ∧
      getProject sampleDB "p1" "bob" = none ∧
      getProjectFiles sampleDB "p1" "bob" = [] ∧
      getConversations sampleDB "p1" "bob" 50 = [] ∧
      getProjectFile sampleDB "p1" "a.txt" "bob" = none ∧
      getProject sampleDB "ghost" "bob" = none ∧
      getProjectFiles sampleDB "ghost" "bob" = [] := by
  have h := reads_hide_foreign_projects sampleDB "p1" "ghost" "a.txt" "alice" "bob" 50
    (by decide) (by decide) (by decide)
  exact ⟨by decide, h.1.1, h.1.2.1, h.1.2.2.1, h.1.2.2.2, h.2.1, h.2.2.1⟩

/-- A project row returned by `getProject` is a member of the projects table
matching id, owner and active status. -/
theorem getProject_eq_some {db : DB} {pid uid : String} {p : Project}
    (h : getProject db pid uid = some p) :
    p ∈ db.projects ∧ p.id = pid ∧ p.user_id = uid ∧ p.status = "active" := by
  rw [getProject] at h
  have hm := List.mem_of_mem_head? (Option.mem_def.mpr h)
  rw [List.mem_filter] at hm
  simpa [Bool.and_eq_true, beq_iff_eq, and_assoc] using hm

/-- Claim C4: every row returned or stored by `saveProjectFile` for the
saved key carries the saved content and a `size_bytes` equal to that
UTF-8 byte length of that content, recomputed at save time (the operation takes no
caller-supplied size), in both the insert and the conflict-update branch. -/
theorem saveProjectFile_recomputes_size (db : DB)
    (pid path name content ftype : String) (now : Nat) :
    (∀ f, (saveProjectFile db pid path name content ftype now).1 = some f →
        f.size_bytes = content.utf8ByteSize ∧ f.content = content) ∧
    (∀ f ∈ (saveProjectFile db pid path name content ftype now).2.project_files,
        f.project_id = pid → f.file_path = path →
        f.size_bytes = content.utf8ByteSize ∧ f.content = content) := by
  have hstore : ∀ f ∈ (saveProjectFile db pid path name content ftype now).2.project_files,
      f.project_id = pid → f.file_path = path →
      f.size_bytes = content.utf8ByteSize ∧ f.content = content := by
    intro f hf hfp hfpath
    simp only [saveProjectFile] at hf
    by_cases hc : (db.project_files.any fun g =>
        g.project_id == pid && g.file_path == path) = true
    · rw [if_pos hc] at hf
      rw [List.mem_map] at hf
      obtain ⟨q, hq, rfl⟩ := hf
      by_cases hcq : (q.project_id == pid && q.file_path == path) = true
      · rw [if_pos hcq]
        exact ⟨rfl, rfl⟩
      · rw [if_neg hcq] at hfp hfpath
        exact absurd (by simp [hfp, hfpath]) hcq
    · rw [if_neg hc] at hf
      rw [List.mem_append, List.mem_singleton] at hf
      rcases hf with hf | rfl
      · rw [Bool.not_eq_true] at hc
        exact absurd (by simp [hfp, hfpath]) (List.any_eq_false.mp hc f hf)
      · exact ⟨rfl, rfl⟩
  refine ⟨?_, hstore⟩
  intro f hf
  have hm := List.mem_of_mem_head? (Option.mem_def.mpr hf)
  rw [List.mem_filter] at hm
  obtain ⟨hmem, hkey⟩ := hm
  simp only [Bool.and_eq_true, beq_iff_eq] at hkey
  exact hstore f hmem hkey.1 hkey.2

/-- Witness for C4 with multi-byte content, exercising both the fresh-insert
key and the conflict-update key of the sample database. -/
theorem saveProjectFile_recomputes_size_witness :
    (saveProjectFile sampleDB "p1" "new.txt" "new.txt" "héllo日本" "text" 7).1 =
      some { project_id := "p1", file_path := "new.txt", file_name := "new.txt",
             content := "héllo日本", file_type := "text", size_bytes := 12,
             created_at := 7, updated_at := 7 } ∧
    ({ project_id := "p1", file_path := "new.txt", file_name := "new.txt",
       content := "héllo日本", file_type := "text", size_bytes := 12,
       created_at := 7, updated_at := 7 : ProjectFile }.size_bytes =
        ("héllo日本" : String).utf8ByteSize ∧
     { project_id := "p1", file_path := "new.txt", file_name := "new.txt",
       content := "héllo日本", file_type := "text", size_bytes := 12,
       created_at := 7, updated_at := 7 : ProjectFile }.content = "héllo日本") ∧
    (saveProjectFile sampleDB "p1" "a.txt" "a.txt" "héllo日本" "text" 7).1 =
      some { project_id := "p1", file_path := "a.txt", file_name := "a.txt",
             content := "héllo日本", file_type := "text", size_bytes := 12,
             created_at := 2, updated_at := 7 } := by
  refine ⟨by decide, ?_, by decide⟩
  exact (saveProjectFile_recomputes_size sampleDB "p1" "new.txt" "new.txt"
    "héllo日本" "text" 7).1 _ (by decide)

/-- Claim C5: `getConversations` returns a list in non-decreasing
`created_at` order of length at most `limit` (obtained most-recent-first,
truncated, then reversed), and the conversation-history handler clamps the
effective limit to at most 100. -/
theorem getConversations_chronological (db : DB) (pid uid : String)
    (limit : Nat) (_pos : 0 < limit) :
    List.Pairwise (fun a b : Conversation => a.created_at ≤ b.created_at)
        (getConversations db pid uid limit) ∧
    (getConversations db pid uid limit).length ≤ limit ∧
    (∀ q : Option Nat, conversationsLimit q ≤ 100) := by
  refine ⟨?_, ?_, ?_⟩
  · rw [getConversations]
    refine List.pairwise_reverse.mpr ?_
    have hs := List.sorted_insertionSort convCreatedDesc
      (db.conversations.filter fun c =>
        c.project_id == pid &&
          db.projects.any fun p => p.id == c.project_id && p.user_id == uid)
    exact List.Pairwise.sublist (List.take_sublist _ _) hs
  · rw [getConversations]
    simp only [List.length_reverse, List.length_take]
    exact min_le_left _ _
  · intro q
    unfold conversationsLimit
    exact min_le_right _ _

/-- Witness for C5 on the sample database: limit 1 keeps only the newest
row, handed back as a single chronological element, and an oversized
requested limit is clamped. -/
theorem getConversations_chronological_witness :
    0 < 1 ∧
      getConversations sampleDB "p1" "alice" 1 = [sampleConvLate] ∧
      (getConversations sampleDB "p1" "alice" 1).length ≤ 1 ∧
      conversationsLimit (some 500) ≤ 100 := by
  have h := getConversations_chronological sampleDB "p1" "alice" 1 (by decide)
  exact ⟨by decide, by decide, h.2.1, h.2.2 (some 500)⟩

/-- Claim C6: a successful `deleteProject` keeps the row (same table size)
but marks it `status = deleted`; afterwards the project is absent from
`getProject` and from `getProjects`, while its files and
conversations are still returned to the owner unchanged by
`getProjectFiles`, `getProjectFile` and `getConversations`. -/
theorem deleteProject_is_soft (db : DB) (pid uid path : String)
    (limit now : Nat) (ret : Project)
    (hdel : (deleteProject db pid uid now).1 = some ret) :
    ret.status = "deleted" ∧
    (deleteProject db pid uid now).2.projects.length = db.projects.length ∧
    getProject (deleteProject db pid uid now).2 pid uid = none ∧
    (∀ p ∈ getProjects (deleteProject db pid uid now).2 uid, p.id ≠ pid) ∧
    getProjectFiles (deleteProject db pid uid now).2 pid uid =
      getProjectFiles db pid uid ∧
    getProjectFile (deleteProject db pid uid now).2 pid path uid =
      getProjectFile db pid path uid ∧
    getConversations (deleteProject db pid uid now).2 pid uid limit =
      getConversations db pid uid limit := by
  have hany : ∀ x uid2 : String,
      ((db.projects.map fun p =>
          if p.id == pid && p.user_id == uid then
            { p with status := "deleted", updated_at := now }
          else p).any fun p => p.id == x && p.user_id == uid2) =
        (db.projects.any fun p => p.id == x && p.user_id == uid2) := by
    intro x uid2
    refine any_map_of_pred_eq ?_ _
    intro q
    by_cases hq : (q.id == pid && q.user_id == uid) = true
    · rw [if_pos hq]
    · rw [if_neg hq]
  refine ⟨?_, ?_, ?_, ?_, ?_, ?_, ?_⟩
  · simp only [deleteProject] at hdel
    have hm := List.mem_of_mem_head? (Option.mem_def.mpr hdel)
    rw [List.mem_filter] at hm
    obtain ⟨hmem, hpred⟩ := hm
    rw [List.mem_map] at hmem
    obtain ⟨q, hq, rfl⟩ := hmem
    by_cases hcq : (q.id == pid && q.user_id == uid) = true
    · rw [if_pos hcq]
    · rw [if_neg hcq] at hpred
      exact absurd hpred hcq
  · simp only [deleteProject]
    exact List.length_map _ _
  · rw [getProject, List.head?_eq_none_iff, List.filter_eq_nil_iff]
    intro p hp
    simp only [deleteProject] at hp
    rw [List.mem_map] at hp
    obtain ⟨q, hq, rfl⟩ := hp
    by_cases hcq : (q.id == pid && q.user_id == uid) = true
    · rw [if_pos hcq]
      simp
    · rw [if_neg hcq]
      simp only [Bool.and_eq_true, beq_iff_eq]
      rintro ⟨⟨h1, h2⟩, h3⟩
      exact hcq (by simp [h1, h2])
  · intro p hp
    rw [getProjects, mem_insertionSort_iff, List.mem_filter] at hp
    obtain ⟨hmem, hpred⟩ := hp
    simp only [deleteProject] at hmem
    rw [List.mem_map] at hmem
    obtain ⟨q, hq, rfl⟩ := hmem
    by_cases hcq : (q.id == pid && q.user_id == uid) = true
    · rw [if_pos hcq] at hpred
      simp at hpred
    · rw [if_neg hcq] at hpred ⊢
      simp only [Bool.and_eq_true, beq_iff_eq] at hpred
      intro heq
      exact hcq (by simp [heq, hpred.1])
  · rw [getProjectFiles, getProjectFiles]
    refine congrArg _ ?_
    refine List.filter_congr ?_
    intro f _
    simp only [deleteProject]
    rw [hany]
  · rw [getProjectFile, getProjectFile]
    refine congrArg _ ?_
    refine List.filter_congr ?_
    intro f _
    simp only [deleteProject]
    rw [hany]
  · rw [getConversations, getConversations]
    have hfe : ((deleteProject db pid uid now).2.conversations.filter fun c =>
        c.project_id == pid &&
          (deleteProject db pid uid now).2.projects.any fun p =>
            p.id == c.project_id && p.user_id == uid) =
        (db.conversations.filter fun c =>
          c.project_id == pid &&
            db.projects.any fun p => p.id == c.project_id && p.user_id == uid) := by
      refine List.filter_congr ?_
      intro c _
      simp only [deleteProject]
      rw [hany]
    rw [hfe]

/-- Witness for C6: deleting "p1" for "alice" keeps the row with status
"deleted", hides it from the project reads, and leaves the file and
conversation reads unchanged. -/
theorem deleteProject_is_soft_witness :
    (deleteProject sampleDB "p1" "alice" 10).1 =
      some { aliceProject with status := "deleted", updated_at := 10 } ∧
    getProject (deleteProject sampleDB "p1" "alice" 10).2 "p1" "alice" = none ∧
    getProjects (deleteProject sampleDB "p1" "alice" 10).2 "alice" = [] ∧
    getProjectFiles (deleteProject sampleDB "p1" "alice" 10).2 "p1" "alice" =
      [sampleFile] ∧
    getConversations (deleteProject sampleDB "p1" "alice" 10).2 "p1" "alice" 50 =
      [sampleConvEarly, sampleConvLate] := by
  have h := deleteProject_is_soft sampleDB "p1" "alice" "a.txt" 50 10
    { aliceProject with status := "deleted", updated_at := 10 } (by decide)
  exact ⟨by decide, h.2.2.1, by decide, by decide, by decide⟩

/-- Claim C7: every modelled read or write path touching conversation or
file rows re-derives ownership of the parent project — the reads via the
SQL join (each returned row has a parent project row owned by the caller),
the write handlers via an explicit `getProject` check against the stored
owner (never the client-supplied identity alone) before any row is created;
a created conversation row references the checked project and owner. -/
theorem child_rows_require_ownership (db : DB) (hdr : Option String)
    (pid path name content ftype msg resp model uid : String)
    (tok limit now : Nat) :
    (∀ f ∈ getProjectFiles db pid uid,
        ∃ p ∈ db.projects, p.id = f.project_id ∧ p.user_id = uid) ∧
    (∀ f, getProjectFile db pid path uid = some f →
        ∃ p ∈ db.projects, p.id = f.project_id ∧ p.user_id = uid) ∧
    (∀ c ∈ getConversations db pid uid limit,
        ∃ p ∈ db.projects, p.id = c.project_id ∧ p.user_id = uid) ∧
    (∀ f, (deleteProjectFile db pid path uid).1 = some f →
        ∃ p ∈ db.projects, p.id = f.project_id ∧ p.user_id = uid) ∧
    (∀ r, handleSaveFile db hdr pid path name content ftype now = some r →
        ∃ p ∈ db.projects,
          p.id = pid ∧ p.user_id = getUserId hdr ∧ p.status = "active") ∧
    (∀ r, handleSaveConversation db hdr pid msg resp model tok now = some r →
        r.1.project_id = pid ∧ r.1.user_id = getUserId hdr ∧
        r.2.conversations = db.conversations ++ [r.1] ∧
        ∃ p ∈ db.projects,
          p.id = pid ∧ p.user_id = getUserId hdr ∧ p.status = "active") := by
  refine ⟨?_, ?_, ?_, ?_, ?_, ?_⟩
  · intro f hf
    exact (mem_getProjectFiles.mp hf).2.2
  · intro f hf
    exact (getProjectFile_eq_some hf).2.2.2
  · intro c hc
    exact (mem_getConversations hc).2.2
  · intro f hf
    simp only [deleteProjectFile] at hf
    have hm := List.mem_of_mem_head? (Option.mem_def.mpr hf)
    rw [List.mem_filter] at hm
    obtain ⟨-, hpred⟩ := hm
    simp only [Bool.and_eq_true, beq_iff_eq, List.any_eq_true] at hpred
    obtain ⟨-, p, hp, hpid, hpu⟩ := hpred
    exact ⟨p, hp, hpid, hpu⟩
  · intro r hr
    rw [handleSaveFile] at hr
    cases hgp : getProject db pid (getUserId hdr) with
    | none => rw [hgp] at hr; cases hr
    | some p =>
      obtain ⟨hp, hid, hu, hs⟩ := getProject_eq_some hgp
      exact ⟨p, hp, hid, hu, hs⟩
  · intro r hr
    rw [handleSaveConversation] at hr
    cases hgp : getProject db pid (getUserId hdr) with
    | none => rw [hgp] at hr; cases hr
    | some p =>
      rw [hgp] at hr
      obtain ⟨hp, hid, hu, hs⟩ := getProject_eq_some hgp
      cases hr' : saveConversation db pid (getUserId hdr) msg resp model tok now with
      | mk c db2 =>
        rw [hr'] at hr
        cases hr
        have h1 : c.project_id = pid := by
          have := congrArg Prod.fst hr'
          simp only [saveConversation] at this
          rw [← this]
        have h2 : c.user_id = getUserId hdr := by
          have := congrArg Prod.fst hr'
          simp only [saveConversation] at this
          rw [← this]
        have h3 : db2.conversations = db.conversations ++ [c] := by
          have hc := congrArg Prod.fst hr'
          have hd := congrArg Prod.snd hr'
          simp only [saveConversation] at hc hd
          rw [← hd, ← hc]
        exact ⟨h1, h2, h3, p, hp, hid, hu, hs⟩

/-- Witness for C7 on the sample database with the caller identity taken
from the x-user-id header. -/
theorem child_rows_require_ownership_witness :
    (sampleFile ∈ getProjectFiles sampleDB "p1" "alice") ∧
    (∃ p ∈ sampleDB.projects, p.id = sampleFile.project_id ∧ p.user_id = "alice") ∧
    (∃ p ∈ sampleDB.projects,
        p.id = "p1" ∧ p.user_id = getUserId (some "alice") ∧ p.status = "active") := by
  have h := child_rows_require_ownership sampleDB (some "alice")
    "p1" "a.txt" "a.txt" "hi" "text" "m" "r" "claude-3-5-sonnet" "alice" 0 50 11
  refine ⟨by decide, h.1 sampleFile (by decide), ?_⟩
  exact h.2.2.2.2.1
    (saveProjectFile sampleDB "p1" "a.txt" "a.txt" "hi" "text" 11) (by decide)

end AidevBackend
